import Mathlib

/-!
Shallow embedding of the Mutex coordinator block (Mutex block of the
flows utilities app). The block persists all state in a durable
key-value store scoped to the block instance:

* key "currentHolder": the event id of the request currently holding the
  lock; the value is written together with a store-level lock token equal
  to that same event id, so clearing it is a compare-and-swap ("set null
  with lock id T") that succeeds only when T matches.
* keys "evt:<eventId>": the wait queue, one entry per pending acquire,
  holding the pending-result handle and the configured timeout; the
  prefix listing returns entries in arrival order (external store
  contract stated by the design).

Handlers embedded here, one pure Lean function per source handler:
onSync (evaluation), onTimer, the acquire input onEvent and the release
input onEvent. Side effects (timers armed, events emitted, pending
results created, re-sync requests) are collected in an explicit
`Effects` record. The timer service also supports cancellation of an
armed timer; the field `timersCancelled` records such calls, and it
stays empty because the source never invokes timer cancellation.

The conditional-clear semantics of the store (clear succeeds iff a
holder exists and its lock token matches the presented one) is the
external collaborator contract of the durable store as the design
states it; the store itself is not part of the repository.
-/

/-- Value stored under a wait-queue key "evt:<eventId>": the handle of the
pending result created at acquire time and the configured lock timeout in
seconds (the acquire input config field `timeout`). -/
structure QueueValue where
  pendingId : Nat
  timeout : Int
deriving DecidableEq, Repr

/-- Persisted state of one Mutex block instance, as read back from the
durable store: the current holder key (value and lock token coincide,
both are the granted event id), the wait-queue pairs in listing order,
and a counter supplying fresh pending-result handles. -/
structure MutexState where
  holder : Option String
  queue : List (String × QueueValue)
  nextPendingId : Nat
deriving DecidableEq, Repr

/-- One emitted event: `events.emit ⟨lockId⟩` with options completing the
pending result `completePending`, echo enabled and the granted event as
parent. -/
structure Emit where
  lockId : String
  completePending : Nat
  parentEventId : String
  echo : Bool
deriving DecidableEq, Repr

/-- Side effects a single handler invocation performs besides the store
writes already reflected in the returned state. -/
structure Effects where
  emits : List Emit
  timersSet : List (Int × String)
  timersCancelled : List String
  pendingsCreated : List Nat
  syncRequested : Bool
deriving DecidableEq, Repr

/-- A handler invocation that performs no side effect. -/
def noEffects : Effects :=
  { emits := [], timersSet := [], timersCancelled := [],
    pendingsCreated := [], syncRequested := false }

/-- A handler invocation whose only side effect is `lifecycle.sync()`. -/
def resyncOnly : Effects :=
  { noEffects with syncRequested := true }

/-- `kv.block.set` restricted to the wait-queue pairs: overwrite an
existing key in place, otherwise append (the store lists entries in
insertion order). -/
def kvSet (q : List (String × QueueValue)) (k : String) (v : QueueValue) :
    List (String × QueueValue) :=
  if q.any (fun p => p.1 = k) then
    q.map (fun p => if p.1 = k then (k, v) else p)
  else
    q ++ [(k, v)]

/-- Deleting a wait-queue key (`kv.block.setMany` with ttl 0 on it). -/
def kvDelete (q : List (String × QueueValue)) (k : String) :
    List (String × QueueValue) :=
  q.filter (fun p => p.1 ≠ k)

/-- Splitting a character list at every occurrence of the separator, the
semantics of the JavaScript single-character `split`. -/
def splitFields (sep : Char) : List Char → List (List Char)
  | [] => [[]]
  | c :: cs =>
    let r := splitFields sep cs
    if c = sep then [] :: r
    else
      match r with
      | [] => [[c]]
      | f :: fs => (c :: f) :: fs

/-- `key.split(":")[1]` of the source: the event id embedded in a
wait-queue key, the second field of the colon-split key. -/
def eventIdOfKey (key : String) : String :=
  String.mk ((splitFields ':' key.data).getD 1 [])

/-- The status the onSync handler reports: Held or Available. -/
inductive SyncStatus where
  | held
  | available
deriving DecidableEq, Repr

/-- `clearLock eventId` of the source: a compare-and-swap clear of the
"currentHolder" key (`kv.block.set` of null with ttl 0, presenting lock
id `eventId`). Per the store contract it succeeds iff a holder exists
and its lock token (the holder id) equals the presented token; on
failure nothing changes. Returns the success flag and the new state. -/
def clearLock (token : String) (s : MutexState) : Bool × MutexState :=
  match s.holder with
  | some h => if h = token then (true, { s with holder := none }) else (false, s)
  | none => (false, s)

namespace Mutex

/-- The onSync (evaluation) handler: if a holder exists, report Held and
do nothing; otherwise, if the queue is empty, report Available; otherwise
grant the head entry: write the holder (value and lock token the granted
event id), delete that queue key, arm a timer for the entry timeout
carrying the event id, and emit the grant completing the entry pending
result. -/
def onSync (s : MutexState) : SyncStatus × MutexState × Effects :=
  match s.holder with
  | some _ => (SyncStatus.held, s, noEffects)
  | none =>
    match s.queue with
    | [] => (SyncStatus.available, s, noEffects)
    | (key, v) :: _ =>
      let eventId := eventIdOfKey key
      ( SyncStatus.held,
        { s with
            holder := some eventId,
            queue := kvDelete s.queue ("evt:" ++ eventId) },
        { noEffects with
            timersSet := [(v.timeout, eventId)],
            emits := [{ lockId := eventId, completePending := v.pendingId,
                        parentEventId := eventId, echo := true }] } )

/-- The onTimer handler: attempt the conditional clear with the timer
payload (empty string when absent); on success request a re-sync,
otherwise do nothing. -/
def onTimer (s : MutexState) (payload : Option String) : MutexState × Effects :=
  match clearLock (payload.getD "") s with
  | (true, s1) => (s1, resyncOnly)
  | (false, s1) => (s1, noEffects)

/-- An inbound acquire event: its id and the `timeout` input config. -/
structure AcquireEvent where
  id : String
  timeout : Int
deriving DecidableEq, Repr

/-- The acquire input onEvent handler: create a pending result, store the
wait-queue entry keyed by the event id, then request a re-sync. -/
def acquireOnEvent (s : MutexState) (e : AcquireEvent) : MutexState × Effects :=
  let pendingId := s.nextPendingId
  ( { s with
        queue := kvSet s.queue ("evt:" ++ e.id) ⟨pendingId, e.timeout⟩,
        nextPendingId := s.nextPendingId + 1 },
    { noEffects with pendingsCreated := [pendingId], syncRequested := true } )

/-- The echoed grant body carried by a release event (the emitted grant
had echo enabled), exposing the lock id. -/
structure EchoBody where
  lockId : String
deriving DecidableEq, Repr

/-- The token a release event presents: `echo?.body.lockId || ""`. -/
def releaseToken (echo : Option EchoBody) : String :=
  (echo.map EchoBody.lockId).getD ""

/-- The release input onEvent handler: attempt the conditional clear with
the echoed lock id (empty string when the echo body is absent); on
success request a re-sync, otherwise do nothing. -/
def releaseOnEvent (s : MutexState) (echo : Option EchoBody) : MutexState × Effects :=
  match clearLock (releaseToken echo) s with
  | (true, s1) => (s1, resyncOnly)
  | (false, s1) => (s1, noEffects)

/-- The four stimulus kinds a Mutex block instance reacts to. -/
inductive Stimulus where
  | sync
  | timer (payload : Option String)
  | acquire (e : AcquireEvent)
  | release (echo : Option EchoBody)

/-- One handler invocation, uniformly over the four stimulus kinds,
dropping the status the evaluation reports. -/
def step (s : MutexState) : Stimulus → MutexState × Effects
  | Stimulus.sync => (onSync s).2
  | Stimulus.timer p => onTimer s p
  | Stimulus.acquire e => acquireOnEvent s e
  | Stimulus.release e => releaseOnEvent s e

end Mutex

/-! ## Theorems for the claims -/

/-- C7. Evaluation idempotence while held: an evaluation that finds an
existing LockHolder reports Held and takes no further action — the state
is returned unchanged and no store write, queue mutation, timer, event or
re-sync request happens. -/
theorem mutex_C7_evaluation_idempotent_while_held
    (s : MutexState) (h : String) (hh : s.holder = some h) :
    Mutex.onSync s = (SyncStatus.held, s, noEffects) := by
  unfold Mutex.onSync
  rw [hh]

/-- Witness for C7 at a concrete held state. -/
theorem mutex_C7_witness :
    Mutex.onSync ⟨some "a", [("evt:b", ⟨0, 60⟩)], 1⟩ =
      (SyncStatus.held, ⟨some "a", [("evt:b", ⟨0, 60⟩)], 1⟩, noEffects) :=
  mutex_C7_evaluation_idempotent_while_held _ "a" rfl

/-- C2. Stale-timer safety: a timer firing whose carried token does not
equal the current holder token — in particular when no holder exists at
all — leaves the persisted state unchanged, emits no event, arms no
timer and requests no re-sync. -/
theorem mutex_C2_stale_timer_safety
    (s : MutexState) (payload : Option String)
    (hstale : ∀ h, s.holder = some h → h ≠ payload.getD "") :
    Mutex.onTimer s payload = (s, noEffects) := by
  unfold Mutex.onTimer clearLock
  cases hh : s.holder with
  | none => simp
  | some h => simp [hstale h hh]

/-- Witness for C2: a timer carrying token b fires while a holds. -/
theorem mutex_C2_witness :
    Mutex.onTimer ⟨some "a", [], 0⟩ (some "b") = (⟨some "a", [], 0⟩, noEffects) :=
  mutex_C2_stale_timer_safety _ _ (by intro h hh; cases hh; decide)

/-- C3. Release protocol and idempotence: a release presenting a token
that matches the stored holder clears the holder and requests a re-sync;
a release whose token mismatches, or arriving when no holder exists, is
a no-op with no effect at all; and immediately re-releasing the same
token after any release is always a no-op, so a double release, or a
release with no holder, is safe both times. -/
theorem mutex_C3_release_protocol :
    (∀ (s : MutexState) (echo : Option Mutex.EchoBody),
      s.holder = some (Mutex.releaseToken echo) →
        Mutex.releaseOnEvent s echo = ({ s with holder := none }, resyncOnly)) ∧
    (∀ (s : MutexState) (echo : Option Mutex.EchoBody),
      s.holder ≠ some (Mutex.releaseToken echo) →
        Mutex.releaseOnEvent s echo = (s, noEffects)) ∧
    (∀ (s : MutexState) (echo : Option Mutex.EchoBody),
      Mutex.releaseOnEvent (Mutex.releaseOnEvent s echo).1 echo =
        ((Mutex.releaseOnEvent s echo).1, noEffects)) := by
  refine ⟨?_, ?_, ?_⟩
  · intro s echo hmatch
    unfold Mutex.releaseOnEvent clearLock
    rw [hmatch]
    simp
  · intro s echo hmis
    unfold Mutex.releaseOnEvent clearLock
    cases hh : s.holder with
    | none => simp [hh]
    | some h =>
      have hne : h ≠ Mutex.releaseToken echo := by
        intro he; exact hmis (he ▸ hh)
      simp [hh, hne]
  · intro s echo
    unfold Mutex.releaseOnEvent clearLock
    cases hh : s.holder with
    | none => simp [hh]
    | some h =>
      by_cases he : h = Mutex.releaseToken echo
      · simp [hh, he]
      · simp [hh, he]

/-- Witness for C3: with a holding, release of token a succeeds, release
of token b is a no-op, and the immediate double release of a is a no-op
the second time. -/
theorem mutex_C3_witness :
    (Mutex.releaseOnEvent ⟨some "a", [], 0⟩ (some ⟨"a"⟩) =
      (⟨none, [], 0⟩, resyncOnly)) ∧
    (Mutex.releaseOnEvent ⟨some "a", [], 0⟩ (some ⟨"b"⟩) =
      (⟨some "a", [], 0⟩, noEffects)) ∧
    (Mutex.releaseOnEvent
        (Mutex.releaseOnEvent ⟨some "a", [], 0⟩ (some ⟨"a"⟩)).1 (some ⟨"a"⟩) =
      ((Mutex.releaseOnEvent ⟨some "a", [], 0⟩ (some ⟨"a"⟩)).1, noEffects)) :=
  ⟨mutex_C3_release_protocol.1 ⟨some "a", [], 0⟩ (some ⟨"a"⟩) rfl,
   mutex_C3_release_protocol.2.1 ⟨some "a", [], 0⟩ (some ⟨"b"⟩) (by decide),
   mutex_C3_release_protocol.2.2 ⟨some "a", [], 0⟩ (some ⟨"a"⟩)⟩

/-- C10. Missing-token stimuli never clear the lock: a release event
carrying no echoed grant body, and a timer firing with an absent or
empty payload, all attempt the conditional clear with the empty-string
token; when the current holder id is a non-empty string they leave the
state unchanged and cause no effect and no re-sync. -/
theorem mutex_C10_empty_token_never_clears
    (s : MutexState) (h : String) (hh : s.holder = some h) (hne : h ≠ "") :
    Mutex.releaseOnEvent s none = (s, noEffects) ∧
    Mutex.onTimer s none = (s, noEffects) ∧
    Mutex.onTimer s (some "") = (s, noEffects) := by
  refine ⟨?_, ?_, ?_⟩
  · unfold Mutex.releaseOnEvent clearLock
    rw [hh]
    simp [Mutex.releaseToken, hne]
  · unfold Mutex.onTimer clearLock
    rw [hh]
    simp [hne]
  · unfold Mutex.onTimer clearLock
    rw [hh]
    simp [hne]

/-- Witness for C10 with holder a. -/
theorem mutex_C10_witness :
    Mutex.releaseOnEvent ⟨some "a", [], 0⟩ none = (⟨some "a", [], 0⟩, noEffects) ∧
    Mutex.onTimer ⟨some "a", [], 0⟩ none = (⟨some "a", [], 0⟩, noEffects) ∧
    Mutex.onTimer ⟨some "a", [], 0⟩ (some "") = (⟨some "a", [], 0⟩, noEffects) :=
  mutex_C10_empty_token_never_clears ⟨some "a", [], 0⟩ "a" rfl (by decide)

/-- Helper: a single step never replaces an existing holder with a
different one — the holder either stays or is cleared. -/
theorem step_holder_cases (s : MutexState) (st : Mutex.Stimulus) (h : String)
    (hh : s.holder = some h) :
    (Mutex.step s st).1.holder = some h ∨ (Mutex.step s st).1.holder = none := by
  cases st with
  | sync => left; simp [Mutex.step, Mutex.onSync, hh]
  | timer p =>
    simp only [Mutex.step, Mutex.onTimer, clearLock, hh]
    by_cases he : h = p.getD ""
    · right; simp [he]
    · left; simp [he, hh]
  | acquire e => left; simp [Mutex.step, Mutex.acquireOnEvent, hh]
  | release echo =>
    simp only [Mutex.step, Mutex.releaseOnEvent, clearLock, hh]
    by_cases he : h = Mutex.releaseToken echo
    · right; simp [he]
    · left; simp [he, hh]

/-- C1. Mutual exclusion: the holder record is a single optional value,
and no stimulus handler ever replaces an existing holder with a different
one in a single step (it can only keep it or clear it); in particular the
evaluation writes a new holder only when it first read no existing
holder, returning the state untouched otherwise. -/
theorem mutex_C1_mutual_exclusion :
    (∀ (s : MutexState) (st : Mutex.Stimulus) (h h' : String),
      s.holder = some h → (Mutex.step s st).1.holder = some h' → h' = h) ∧
    (∀ (s : MutexState) (h : String), s.holder = some h →
      Mutex.onSync s = (SyncStatus.held, s, noEffects)) := by
  constructor
  · intro s st h h' hh hh'
    rcases step_holder_cases s st h hh with hc | hc
    · rw [hc] at hh'
      exact (Option.some.inj hh').symm
    · rw [hc] at hh'
      cases hh'
  · intro s h hh
    unfold Mutex.onSync
    rw [hh]

/-- Witness for C1: a timer step under holder a keeps the holder a, and
an evaluation under holder a is the identity. -/
theorem mutex_C1_witness :
    ("a" : String) = "a" ∧
    Mutex.onSync ⟨some "a", [], 0⟩ = (SyncStatus.held, ⟨some "a", [], 0⟩, noEffects) :=
  ⟨mutex_C1_mutual_exclusion.1 ⟨some "a", [], 0⟩ (Mutex.Stimulus.timer (some "b"))
      "a" "a" rfl (by decide),
   mutex_C1_mutual_exclusion.2 ⟨some "a", [], 0⟩ "a" rfl⟩

/-- Helper: deleting a key that heads the queue and occurs nowhere else
removes exactly the head. -/
theorem kvDelete_cons_self (key : String) (v : QueueValue)
    (rest : List (String × QueueValue)) (hrest : ∀ p ∈ rest, p.1 ≠ key) :
    kvDelete ((key, v) :: rest) key = rest := by
  unfold kvDelete
  rw [List.filter_cons, if_neg (by simp)]
  exact List.filter_eq_self.mpr (fun p hp => by simp [hrest p hp])

/-- Helper: the evaluation with no holder and a well-formed queue head
grants exactly the head entry. -/
theorem onSync_grant
    (s : MutexState) (key : String) (v : QueueValue)
    (rest : List (String × QueueValue)) (id : String)
    (hh : s.holder = none)
    (hq : s.queue = (key, v) :: rest)
    (hid : eventIdOfKey key = id)
    (hkey : key = "evt:" ++ id)
    (hrest : ∀ p ∈ rest, p.1 ≠ key) :
    Mutex.onSync s =
      (SyncStatus.held,
       { s with holder := some id, queue := rest },
       { noEffects with
           timersSet := [(v.timeout, id)],
           emits := [{ lockId := id, completePending := v.pendingId,
                       parentEventId := id, echo := true }] }) := by
  unfold Mutex.onSync
  rw [hh, hq]
  simp only [hid, ← hkey]
  rw [kvDelete_cons_self key v rest hrest]

/-- C4. Grant step: an evaluation that reads no holder and a non-empty
queue takes the head entry and performs exactly the grant effects: the
holder becomes the granted event id (which is also the release token),
that queue key is deleted, one timer is armed for the entry timeout
carrying the token, and one event is emitted completing the entry
pending result with the event id as lock id — one grant per evaluation
even when more entries are queued. -/
theorem mutex_C4_grant_step
    (s : MutexState) (key : String) (v : QueueValue)
    (rest : List (String × QueueValue)) (id : String)
    (hh : s.holder = none)
    (hq : s.queue = (key, v) :: rest)
    (hid : eventIdOfKey key = id)
    (hkey : key = "evt:" ++ id)
    (hrest : ∀ p ∈ rest, p.1 ≠ key) :
    Mutex.onSync s =
      (SyncStatus.held,
       { s with holder := some id, queue := rest },
       { noEffects with
           timersSet := [(v.timeout, id)],
           emits := [{ lockId := id, completePending := v.pendingId,
                       parentEventId := id, echo := true }] }) :=
  onSync_grant s key v rest id hh hq hid hkey hrest

/-- Witness for C4: from no holder and queued entries a then b, the
evaluation grants a, arms the 60 second timer with token a and completes
pending 0 with lock id a. -/
theorem mutex_C4_witness :
    Mutex.onSync ⟨none, [("evt:a", ⟨0, 60⟩), ("evt:b", ⟨1, 30⟩)], 2⟩ =
      (SyncStatus.held,
       ⟨some "a", [("evt:b", ⟨1, 30⟩)], 2⟩,
       { noEffects with
           timersSet := [(60, "a")],
           emits := [{ lockId := "a", completePending := 0,
                       parentEventId := "a", echo := true }] }) :=
  mutex_C4_grant_step _ "evt:a" ⟨0, 60⟩ [("evt:b", ⟨1, 30⟩)] "a" rfl rfl
    (by decide) (by decide) (by decide)

/-- Helper: an acquire whose event id is not yet queued appends its
entry, creates one pending result and requests a re-sync. -/
theorem acquireOnEvent_queues
    (s : MutexState) (e : Mutex.AcquireEvent)
    (hfresh : ∀ p ∈ s.queue, p.1 ≠ "evt:" ++ e.id) :
    Mutex.acquireOnEvent s e =
      ({ s with
           queue := s.queue ++ [("evt:" ++ e.id, ⟨s.nextPendingId, e.timeout⟩)],
           nextPendingId := s.nextPendingId + 1 },
       { noEffects with pendingsCreated := [s.nextPendingId],
                        syncRequested := true }) := by
  unfold Mutex.acquireOnEvent kvSet
  have hany : s.queue.any (fun p => p.1 = "evt:" ++ e.id) = false := by
    rw [List.any_eq_false]
    intro p hp
    simp [hfresh p hp]
  rw [hany]
  simp

/-- C6. Acquire behaviour: every acquire event, whatever its timeout
value, is handled the same total way — a fresh pending result is
created, the wait-queue entry keyed by the event id is appended holding
that pending handle and the timeout, and a re-sync is requested; the
holder is untouched and nothing is emitted. -/
theorem mutex_C6_acquire_always_queues
    (s : MutexState) (e : Mutex.AcquireEvent)
    (hfresh : ∀ p ∈ s.queue, p.1 ≠ "evt:" ++ e.id) :
    Mutex.acquireOnEvent s e =
      ({ s with
           queue := s.queue ++ [("evt:" ++ e.id, ⟨s.nextPendingId, e.timeout⟩)],
           nextPendingId := s.nextPendingId + 1 },
       { noEffects with pendingsCreated := [s.nextPendingId],
                        syncRequested := true }) :=
  acquireOnEvent_queues s e hfresh

/-- Witness for C6 at the empty state with event a and timeout 60. -/
theorem mutex_C6_witness :
    Mutex.acquireOnEvent ⟨none, [], 0⟩ ⟨"a", 60⟩ =
      (⟨none, [("evt:a", ⟨0, 60⟩)], 1⟩,
       { noEffects with pendingsCreated := [0], syncRequested := true }) :=
  mutex_C6_acquire_always_queues ⟨none, [], 0⟩ ⟨"a", 60⟩ (by simp)

/-- C5. FIFO fairness: with waiters queued in arrival order first id1,
then id2, then id3 and no holder, the evaluation grants id1; after the
holder granted to id1 is cleared by a matching release, the next
evaluation grants id2, not id3. -/
theorem mutex_C5_fifo_fairness
    (s : MutexState) (id1 id2 id3 : String) (v1 v2 v3 : QueueValue)
    (hh : s.holder = none)
    (hq : s.queue =
      [("evt:" ++ id1, v1), ("evt:" ++ id2, v2), ("evt:" ++ id3, v3)])
    (h1 : eventIdOfKey ("evt:" ++ id1) = id1)
    (h2 : eventIdOfKey ("evt:" ++ id2) = id2)
    (hne21 : "evt:" ++ id2 ≠ "evt:" ++ id1)
    (hne31 : "evt:" ++ id3 ≠ "evt:" ++ id1)
    (hne32 : "evt:" ++ id3 ≠ "evt:" ++ id2) :
    (Mutex.onSync s).2.2.emits.map Emit.lockId = [id1] ∧
    (Mutex.onSync
        (Mutex.releaseOnEvent (Mutex.onSync s).2.1 (some ⟨id1⟩)).1
      ).2.2.emits.map Emit.lockId = [id2] := by
  have hrest1 : ∀ p ∈ [("evt:" ++ id2, v2), ("evt:" ++ id3, v3)],
      p.1 ≠ "evt:" ++ id1 := by
    intro p hp
    rcases List.mem_cons.mp hp with rfl | hp2
    · exact hne21
    · rcases List.mem_cons.mp hp2 with rfl | hp3
      · exact hne31
      · exact absurd hp3 (List.not_mem_nil p)
  have e1 := onSync_grant s ("evt:" ++ id1) v1
    [("evt:" ++ id2, v2), ("evt:" ++ id3, v3)] id1 hh hq h1 rfl hrest1
  refine ⟨by rw [e1]; rfl, ?_⟩
  rw [e1]
  have e2 : Mutex.releaseOnEvent
      { s with holder := some id1,
               queue := [("evt:" ++ id2, v2), ("evt:" ++ id3, v3)] }
      (some ⟨id1⟩) =
      ({ s with holder := none,
                queue := [("evt:" ++ id2, v2), ("evt:" ++ id3, v3)] },
       resyncOnly) := by
    simp [Mutex.releaseOnEvent, clearLock, Mutex.releaseToken]
  rw [e2]
  have hrest2 : ∀ p ∈ [("evt:" ++ id3, v3)], p.1 ≠ "evt:" ++ id2 := by
    intro p hp
    rcases List.mem_cons.mp hp with rfl | hp2
    · exact hne32
    · exact absurd hp2 (List.not_mem_nil p)
  have e3 := onSync_grant
    { s with holder := none,
             queue := [("evt:" ++ id2, v2), ("evt:" ++ id3, v3)] }
    ("evt:" ++ id2) v2 [("evt:" ++ id3, v3)] id2 rfl rfl h2 rfl hrest2
  rw [e3]
  rfl

/-- Witness for C5 with waiters a, b, c. -/
theorem mutex_C5_witness :
    (Mutex.onSync ⟨none,
        [("evt:a", ⟨0, 60⟩), ("evt:b", ⟨1, 30⟩), ("evt:c", ⟨2, 10⟩)], 3⟩
      ).2.2.emits.map Emit.lockId = ["a"] ∧
    (Mutex.onSync
        (Mutex.releaseOnEvent
          (Mutex.onSync ⟨none,
            [("evt:a", ⟨0, 60⟩), ("evt:b", ⟨1, 30⟩), ("evt:c", ⟨2, 10⟩)], 3⟩
          ).2.1 (some ⟨"a"⟩)).1
      ).2.2.emits.map Emit.lockId = ["b"] :=
  mutex_C5_fifo_fairness _ "a" "b" "c" ⟨0, 60⟩ ⟨1, 30⟩ ⟨2, 10⟩ rfl rfl
    (by decide) (by decide) (by decide) (by decide) (by decide)

/-- C8 counterexample: an acquire carrying the non-positive timeout 0 is
not rejected — at the empty state it mutates the persisted state, creates
a pending result and requests a re-sync. -/
theorem mutex_C8_counterexample :
    (0 : Int) ≤ 0 ∧
    (Mutex.acquireOnEvent ⟨none, [], 0⟩ ⟨"a", 0⟩).1 ≠ ⟨none, [], 0⟩ ∧
    (Mutex.acquireOnEvent ⟨none, [], 0⟩ ⟨"a", 0⟩).2.pendingsCreated ≠ [] ∧
    (Mutex.acquireOnEvent ⟨none, [], 0⟩ ⟨"a", 0⟩).2.syncRequested = true := by
  decide

/-- C8 amended: the acquire entry point performs no timeout validation —
an acquire whose timeout is non-positive is processed exactly like any
other: its pending result is created, its wait-queue entry (holding the
non-positive timeout) is appended, and a re-sync is requested. -/
theorem mutex_C8_amended_nonpositive_timeout_queued
    (s : MutexState) (e : Mutex.AcquireEvent) (_ht : e.timeout ≤ 0)
    (hfresh : ∀ p ∈ s.queue, p.1 ≠ "evt:" ++ e.id) :
    Mutex.acquireOnEvent s e =
      ({ s with
           queue := s.queue ++ [("evt:" ++ e.id, ⟨s.nextPendingId, e.timeout⟩)],
           nextPendingId := s.nextPendingId + 1 },
       { noEffects with pendingsCreated := [s.nextPendingId],
                        syncRequested := true }) :=
  acquireOnEvent_queues s e hfresh

/-- Witness for the amended C8 with timeout -5. -/
theorem mutex_C8_witness :
    Mutex.acquireOnEvent ⟨none, [], 0⟩ ⟨"a", -5⟩ =
      (⟨none, [("evt:a", ⟨0, -5⟩)], 1⟩,
       { noEffects with pendingsCreated := [0], syncRequested := true }) :=
  mutex_C8_amended_nonpositive_timeout_queued ⟨none, [], 0⟩ ⟨"a", -5⟩
    (by decide) (by simp)

/-- C9 counterexample: after the evaluation grants a and arms the 60
second timer with token a, an explicit matching release before any
firing clears the holder yet cancels no timer — the handlers never
invoke timer cancellation. -/
theorem mutex_C9_counterexample :
    (Mutex.onSync ⟨none, [("evt:a", ⟨0, 60⟩)], 1⟩).2.2.timersSet =
      [(60, "a")] ∧
    (Mutex.releaseOnEvent (Mutex.onSync ⟨none, [("evt:a", ⟨0, 60⟩)], 1⟩).2.1
        (some ⟨"a"⟩)).1.holder = none ∧
    (Mutex.releaseOnEvent (Mutex.onSync ⟨none, [("evt:a", ⟨0, 60⟩)], 1⟩).2.1
        (some ⟨"a"⟩)).2.timersCancelled = [] := by
  decide

/-- C9 amended: no handler ever cancels a timer — the armed timer is left
to fire even when the grant is explicitly released first — and such a
late firing, carrying the token of the already-released holder, is a
harmless no-op. -/
theorem mutex_C9_amended_no_cancellation :
    (∀ (s : MutexState) (st : Mutex.Stimulus),
      (Mutex.step s st).2.timersCancelled = []) ∧
    (∀ (s : MutexState) (t : String), s.holder = some t →
      Mutex.onTimer (Mutex.releaseOnEvent s (some ⟨t⟩)).1 (some t) =
        ((Mutex.releaseOnEvent s (some ⟨t⟩)).1, noEffects)) := by
  constructor
  · intro s st
    cases st with
    | sync =>
      rcases hs : s.holder with _ | h
      · rcases hqq : s.queue with _ | ⟨⟨k, v⟩, tl⟩
        · simp [Mutex.step, Mutex.onSync, hs, hqq, noEffects]
        · simp [Mutex.step, Mutex.onSync, hs, hqq, noEffects]
      · simp [Mutex.step, Mutex.onSync, hs, noEffects]
    | timer p =>
      rcases hc : clearLock (p.getD "") s with ⟨b, s1⟩
      cases b
      · simp [Mutex.step, Mutex.onTimer, hc, noEffects]
      · simp [Mutex.step, Mutex.onTimer, hc, resyncOnly, noEffects]
    | acquire e =>
      simp [Mutex.step, Mutex.acquireOnEvent, noEffects]
    | release echo =>
      rcases hc : clearLock (Mutex.releaseToken echo) s with ⟨b, s1⟩
      cases b
      · simp [Mutex.step, Mutex.releaseOnEvent, hc, noEffects]
      · simp [Mutex.step, Mutex.releaseOnEvent, hc, resyncOnly, noEffects]
  · intro s t hh
    have e1 : Mutex.releaseOnEvent s (some ⟨t⟩) =
        ({ s with holder := none }, resyncOnly) := by
      unfold Mutex.releaseOnEvent clearLock
      simp [Mutex.releaseToken, hh]
    rw [e1]
    unfold Mutex.onTimer clearLock
    simp

/-- Witness for the amended C9: a grant evaluation cancels no timer, and
after a releases, a timer firing with token a is a no-op. -/
theorem mutex_C9_witness :
    (Mutex.step ⟨none, [("evt:a", ⟨0, 60⟩)], 1⟩ Mutex.Stimulus.sync
      ).2.timersCancelled = [] ∧
    Mutex.onTimer (Mutex.releaseOnEvent ⟨some "a", [], 0⟩ (some ⟨"a"⟩)).1
        (some "a") =
      ((Mutex.releaseOnEvent ⟨some "a", [], 0⟩ (some ⟨"a"⟩)).1, noEffects) :=
  ⟨mutex_C9_amended_no_cancellation.1 ⟨none, [("evt:a", ⟨0, 60⟩)], 1⟩
      Mutex.Stimulus.sync,
   mutex_C9_amended_no_cancellation.2 ⟨some "a", [], 0⟩ "a" rfl⟩
